import Mathlib

/-!
Verification of the coin-collection manager (`coinpresent/script.js` and the
AI modules) against its natural-language specification.

The JavaScript source is shallowly embedded: pure computations become Lean
functions, the mutable `CoinCollectionManager` state becomes the `AppState`
record threaded explicitly, `localStorage` becomes the `Store` record with an
explicit quota, and JavaScript exceptions become `Option`/`Bool` outcomes.
JavaScript strings are modelled by Lean `String` (lengths count code points;
all the data the length checks look at — JSON text and base64 data URLs — is
ASCII, where the two length notions agree), JavaScript numbers that hold
integers by `Nat`/`Int`, and the fractional arithmetic of the mock market
search by `ℚ`.
-/

set_option maxRecDepth 8000

namespace Coinpresent

/-- A media gallery item, from the object literals `handleMediaUpload` pushes
onto `coin.media.images` / `coin.media.videos` and the optional flags the
gallery UI toggles on it (`isFeatured`, `isCurated`, `allowAnnotations`,
`source`, `tags`, `data`).  Absent JavaScript properties are `none`. -/
structure MediaItem where
  id : String := ""
  type : Option String := none
  url : Option String := none
  data : Option String := none
  title : Option String := none
  description : Option String := none
  uploadDate : Option String := none
  isFeatured : Option Bool := none
  isCurated : Option Bool := none
  allowAnnotations : Option Bool := none
  source : Option String := none
  tags : Option (List String) := none
deriving DecidableEq, Repr

/-- The switch body of `applyMediaFilter` (script.js:1087-1102): the predicate
applied to each media item for a given filter name.  `media.tags &&
media.tags.includes('macro')` is falsy when `tags` is absent. -/
def mediaFilterPred (filter : String) (media : MediaItem) : Bool :=
  if filter = "featured" then media.isFeatured = some true
  else if filter = "ai" then media.source = some "ai"
  else if filter = "macro" then
    match media.tags with
    | some ts => ts.contains "macro"
    | none => false
  else if filter = "video" then media.type = some "video"
  else if filter = "annotated" then media.allowAnnotations = some true
  else true

/-- `applyMediaFilter` (script.js:1082-1103): `'all'` returns the list itself,
anything else filters by `mediaFilterPred`. -/
def applyMediaFilter (mediaList : List MediaItem) (filter : String) : List MediaItem :=
  if filter = "all" then mediaList else mediaList.filter (mediaFilterPred filter)

/-- JavaScript truthiness of `media.isCurated` in the `'curated'` comparator. -/
def isCuratedB (m : MediaItem) : Bool := m.isCurated = some true

/-- The `'curated'` comparator of `applyMediaSort` as a `≤` test: the JS
comparator returns -1 when `a` is curated and `b` is not, 1 in the mirrored
case and 0 otherwise, so `cmp a b ≤ 0` iff not (`a` uncurated and `b`
curated). -/
def curatedLe (a b : MediaItem) : Bool := !(!isCuratedB a && isCuratedB b)

/-- Days from 1970-01-01 of a proleptic Gregorian date (the civil-from-days
inverse used to model `Date.parse` of the ISO strings `toISOString`
produces). -/
def daysFromCivil (y : Int) (m d : Nat) : Int :=
  let y' : Int := if m ≤ 2 then y - 1 else y
  let era : Int := (if 0 ≤ y' then y' else y' - 399) / 400
  let yoe : Int := y' - era * 400
  let mp : Nat := (m + 9) % 12
  let doy : Int := (153 * mp + 2) / 5 + d - 1
  let doe : Int := yoe * 365 + yoe / 4 - yoe / 100 + doy
  era * 146097 + doe - 719468

/-- Numeric value of a decimal digit character. -/
def digitVal (c : Char) : Nat := c.toNat - 48

/-- Millisecond timestamp of an ISO-8601 string of the exact shape
`Date.prototype.toISOString` emits (`YYYY-MM-DDTHH:MM:SS.mmmZ`), which is how
`uploadDate` is written by `handleMediaUpload`.  Other strings (on which the
JS comparator would produce `NaN`) are mapped to the epoch. -/
def isoMillis (s : String) : Int :=
  match s.data with
  | [y1, y2, y3, y4, '-', m1, m2, '-', d1, d2, 'T',
     h1, h2, ':', n1, n2, ':', s1, s2, '.', f1, f2, f3, 'Z'] =>
    if [y1, y2, y3, y4, m1, m2, d1, d2, h1, h2, n1, n2, s1, s2, f1, f2, f3].all Char.isDigit
    then
      let year : Int := (1000 * digitVal y1 + 100 * digitVal y2 + 10 * digitVal y3 + digitVal y4 : Nat)
      let month := 10 * digitVal m1 + digitVal m2
      let day := 10 * digitVal d1 + digitVal d2
      let hh := 10 * digitVal h1 + digitVal h2
      let mm := 10 * digitVal n1 + digitVal n2
      let ss := 10 * digitVal s1 + digitVal s2
      let ms := 100 * digitVal f1 + 10 * digitVal f2 + digitVal f3
      ((daysFromCivil year month day * 24 + hh) * 60 + mm) * 60 * 1000 + ss * 1000 + ms
    else 0
  | _ => 0

/-- The date key of the `'chronological'` comparator: `a.uploadDate ? new
Date(a.uploadDate) : new Date(0)` — a falsy (absent or empty) `uploadDate` is
the epoch. -/
def mediaDateMs (m : MediaItem) : Int :=
  match m.uploadDate with
  | none => 0
  | some s => if s = "" then 0 else isoMillis s

/-- The `'chronological'` comparator `dateB - dateA` as a `≤` test. -/
def chronoLe (a b : MediaItem) : Bool := mediaDateMs b ≤ mediaDateMs a

/-- The `'title'` sort key `(a.title || '').toLowerCase()`. -/
def titleKey (m : MediaItem) : String := (m.title.getD "").toLower

/-- The `'title'` comparator (`localeCompare` modelled as code-point order)
as a `≤` test. -/
def titleLe (a b : MediaItem) : Bool := titleKey a ≤ titleKey b

/-- The `'type'` comparator `(a.type || '').localeCompare(b.type || '')` as a
`≤` test. -/
def typeLe (a b : MediaItem) : Bool := a.type.getD "" ≤ b.type.getD ""

/-- `applyMediaSort` (script.js:1105-1134); the instance field
`this.mediaSortMode` the switch reads becomes the explicit first argument.
The source copies the list (`[...mediaList]`) and sorts the copy in place
with `Array.prototype.sort`, which ECMAScript requires to be stable; a
comparator `cmp` therefore yields the stable sort by
`fun a b => cmp a b ≤ 0`, modelled with `List.mergeSort`.  The
unrecognized-mode default returns the copy unsorted. -/
def applyMediaSort (mediaSortMode : String) (mediaList : List MediaItem) : List MediaItem :=
  if mediaSortMode = "curated" then mediaList.mergeSort curatedLe
  else if mediaSortMode = "chronological" then mediaList.mergeSort chronoLe
  else if mediaSortMode = "title" then mediaList.mergeSort titleLe
  else if mediaSortMode = "type" then mediaList.mergeSort typeLe
  else mediaList

/-- An annotation marker, from the object literal `addAnnotation` pushes
(script.js:1169-1175): `{ id, x, y, label, color }`.  Click coordinates are
modelled as integers. -/
structure Marker where
  id : Nat
  x : Int
  y : Int
  label : String
  color : String
deriving DecidableEq, Repr

/-- `coin.images`: the two main data-URL slots, `null` when not yet
uploaded. -/
structure CoinImages where
  obverse : Option String := none
  reverse : Option String := none
deriving DecidableEq, Repr

/-- `coin.media`: the uploaded gallery items, split by kind as
`handleMediaUpload` pushes them. -/
structure CoinMedia where
  images : List MediaItem := []
  videos : List MediaItem := []
deriving DecidableEq, Repr

/-- `coin.metadata` (script.js:301-311): nine free-text form fields. -/
structure CoinMetadata where
  country : String := ""
  year : String := ""
  denomination : String := ""
  metal : String := ""
  diameter : String := ""
  weight : String := ""
  mintmark : String := ""
  edge : String := ""
  mintage : String := ""
deriving DecidableEq, Repr

/-- `coin.condition` (script.js:312-318). -/
structure CoinCondition where
  grade : String := ""
  notes : String := ""
  wear : String := ""
  luster : String := ""
  strike : String := ""
deriving DecidableEq, Repr

/-- One valuation scenario `{ min, max, description }`. -/
structure ValuationScenario where
  min : Int
  max : Int
  description : String
deriving DecidableEq, Repr

/-- `coin.valuation.scenarios` (script.js:320-326). -/
structure ValuationScenarios where
  common : ValuationScenario
  silver : ValuationScenario
  collectible : ValuationScenario
deriving DecidableEq, Repr

/-- `coin.valuation`. -/
structure CoinValuation where
  scenarios : ValuationScenarios
  currentEstimate : String := ""
  marketNotes : String := ""
deriving DecidableEq, Repr

/-- A coin, the object literal of `addCoin` (script.js:278-331).  The
`annotations` object maps side names to marker lists; a JavaScript object is a
key-ordered map, modelled as an association list so that "has exactly the
keys obverse and reverse" is a statable property rather than baked into a
record type. -/
structure Coin where
  id : Nat
  title : String
  description : String
  images : CoinImages
  media : CoinMedia
  annotations : List (String × List Marker)
  metadata : CoinMetadata
  condition : CoinCondition
  valuation : CoinValuation
  notes : String
  created : String
  modified : String
deriving DecidableEq, Repr

/-- The manager state the claims touch, from the constructor
(script.js:4-30): `coins`, `currentMode` (initially `'annotate'`),
`nextCoinId` (initially 1), `nextAnnotationId` (initially 1000),
`quickAnnotationType` (initially `null`) and `expandedCoins` (a `Set`,
modelled as its insertion-ordered, duplicate-free element list).  UI-only
fields (selection, comparison slots, console log, service statuses) are not
modelled. -/
structure AppState where
  coins : List Coin := []
  currentMode : String := "annotate"
  nextCoinId : Nat := 1
  nextAnnotationId : Nat := 1000
  quickAnnotationType : Option String := none
  expandedCoins : List Nat := []
deriving DecidableEq, Repr

/-- Lowercase hexadecimal digit. -/
def hexLower (n : Nat) : Char := if n < 10 then Char.ofNat (48 + n) else Char.ofNat (87 + n)

/-- One character of a JSON string body, as `JSON.stringify` escapes it. -/
def jsonEscChar (c : Char) : List Char :=
  if c = '"' then ['\\', '"']
  else if c = '\\' then ['\\', '\\']
  else if c = '\x08' then ['\\', 'b']
  else if c = '\x09' then ['\\', 't']
  else if c = '\x0a' then ['\\', 'n']
  else if c = '\x0c' then ['\\', 'f']
  else if c = '\x0d' then ['\\', 'r']
  else if c.toNat < 32 then ['\\', 'u', '0', '0', hexLower (c.toNat / 16), hexLower (c.toNat % 16)]
  else [c]

/-- `JSON.stringify` of a string value. -/
def jsonString (s : String) : String :=
  "\"" ++ String.mk (s.data.flatMap jsonEscChar) ++ "\""

/-- Comma-join of serialized pieces. -/
def joinComma : List String → String
  | [] => ""
  | [x] => x
  | x :: y :: xs => x ++ "," ++ joinComma (y :: xs)

/-- `JSON.stringify` of an array, the parts already serialized. -/
def jsonArr (xs : List String) : String := "[" ++ joinComma xs ++ "]"

/-- `JSON.stringify` of an object, the field values already serialized. -/
def jsonObj (fields : List (String × String)) : String :=
  "\x7b" ++ joinComma (fields.map (fun f => jsonString f.1 ++ ":" ++ f.2)) ++ "\x7d"

/-- `JSON.stringify` of a string-or-null slot. -/
def jsonOptStr : Option String → String
  | none => "null"
  | some s => jsonString s

/-- `JSON.stringify` of one marker. -/
def stringifyMarker (a : Marker) : String :=
  jsonObj [("id", toString a.id), ("x", toString a.x), ("y", toString a.y),
           ("label", jsonString a.label), ("color", jsonString a.color)]

/-- The present properties of a media item in creation order
(`handleMediaUpload` sets the first six; the optional gallery flags follow):
`JSON.stringify` writes only the properties the object has. -/
def mediaFields (m : MediaItem) : List (String × String) :=
  [("id", jsonString m.id)]
  ++ (match m.type with | some v => [("type", jsonString v)] | none => [])
  ++ (match m.url with | some v => [("url", jsonString v)] | none => [])
  ++ (match m.data with | some v => [("data", jsonString v)] | none => [])
  ++ (match m.title with | some v => [("title", jsonString v)] | none => [])
  ++ (match m.description with | some v => [("description", jsonString v)] | none => [])
  ++ (match m.uploadDate with | some v => [("uploadDate", jsonString v)] | none => [])
  ++ (match m.isFeatured with | some v => [("isFeatured", if v then "true" else "false")] | none => [])
  ++ (match m.isCurated with | some v => [("isCurated", if v then "true" else "false")] | none => [])
  ++ (match m.allowAnnotations with | some v => [("allowAnnotations", if v then "true" else "false")] | none => [])
  ++ (match m.source with | some v => [("source", jsonString v)] | none => [])
  ++ (match m.tags with | some v => [("tags", jsonArr (v.map jsonString))] | none => [])

/-- `JSON.stringify` of one media item. -/
def stringifyMediaItem (m : MediaItem) : String := jsonObj (mediaFields m)

/-- `JSON.stringify` of one valuation scenario. -/
def stringifyScenario (v : ValuationScenario) : String :=
  jsonObj [("min", toString v.min), ("max", toString v.max),
           ("description", jsonString v.description)]

/-- `JSON.stringify` of one coin, fields in the creation order of
`addCoin`. -/
def stringifyCoin (c : Coin) : String :=
  jsonObj
    [("id", toString c.id),
     ("title", jsonString c.title),
     ("description", jsonString c.description),
     ("images", jsonObj [("obverse", jsonOptStr c.images.obverse),
                         ("reverse", jsonOptStr c.images.reverse)]),
     ("media", jsonObj [("images", jsonArr (c.media.images.map stringifyMediaItem)),
                        ("videos", jsonArr (c.media.videos.map stringifyMediaItem))]),
     ("annotations", jsonObj (c.annotations.map
        (fun p => (p.1, jsonArr (p.2.map stringifyMarker))))),
     ("metadata", jsonObj [("country", jsonString c.metadata.country),
                           ("year", jsonString c.metadata.year),
                           ("denomination", jsonString c.metadata.denomination),
                           ("metal", jsonString c.metadata.metal),
                           ("diameter", jsonString c.metadata.diameter),
                           ("weight", jsonString c.metadata.weight),
                           ("mintmark", jsonString c.metadata.mintmark),
                           ("edge", jsonString c.metadata.edge),
                           ("mintage", jsonString c.metadata.mintage)]),
     ("condition", jsonObj [("grade", jsonString c.condition.grade),
                            ("notes", jsonString c.condition.notes),
                            ("wear", jsonString c.condition.wear),
                            ("luster", jsonString c.condition.luster),
                            ("strike", jsonString c.condition.strike)]),
     ("valuation", jsonObj
        [("scenarios", jsonObj [("common", stringifyScenario c.valuation.scenarios.common),
                                ("silver", stringifyScenario c.valuation.scenarios.silver),
                                ("collectible", stringifyScenario c.valuation.scenarios.collectible)]),
         ("currentEstimate", jsonString c.valuation.currentEstimate),
         ("marketNotes", jsonString c.valuation.marketNotes)]),
     ("notes", jsonString c.notes),
     ("created", jsonString c.created),
     ("modified", jsonString c.modified)]

/-- `dataToSave = JSON.stringify(this.coins)` (script.js:1735). -/
def stringifyCoins (cs : List Coin) : String := jsonArr (cs.map stringifyCoin)

/-- The metadata object `saveToStorage` persists (script.js:1736-1740):
`{ nextCoinId, nextAnnotationId, expandedCoins: Array.from(this.expandedCoins) }`. -/
structure MetaSnapshot where
  nextCoinId : Nat
  nextAnnotationId : Nat
  expandedCoins : List Nat
deriving DecidableEq, Repr

/-- The metadata snapshot of a state. -/
def metaOf (s : AppState) : MetaSnapshot :=
  ⟨s.nextCoinId, s.nextAnnotationId, s.expandedCoins⟩

/-- `metaToSave = JSON.stringify({...})`. -/
def stringifyMeta (m : MetaSnapshot) : String :=
  jsonObj [("nextCoinId", toString m.nextCoinId),
           ("nextAnnotationId", toString m.nextAnnotationId),
           ("expandedCoins", jsonArr (m.expandedCoins.map toString))]

/-- The browser's `localStorage` restricted to the two keys the app uses.
The stored JSON strings are represented by their parsed values
(`JSON.parse` inverts `JSON.stringify` on this acyclic plain data; both
stored strings are nonempty, so the `if (stored)` truthiness test of
`loadFromStorage` is exactly the `Option` match).  `quota` is the browser's
capacity in UTF-16 code units over key and value lengths; `setItem` throws
`QuotaExceededError`, atomically, when a write would exceed it. -/
structure Store where
  coinCollection : Option (List Coin) := none
  coinCollectionMeta : Option MetaSnapshot := none
  quota : Nat
deriving DecidableEq, Repr

/-- Code units held by a store: key plus serialized value for each present
entry. -/
def storeUsed (st : Store) : Nat :=
  (match st.coinCollection with
   | some cs => "coinCollection".length + (stringifyCoins cs).length
   | none => 0)
  + (match st.coinCollectionMeta with
     | some m => "coinCollectionMeta".length + (stringifyMeta m).length
     | none => 0)

/-- `localStorage.setItem('coinCollection', JSON.stringify(coins))`: the new
store and `true`, or the unchanged store and `false` for a
`QuotaExceededError`. -/
def setCoinsItem (st : Store) (cs : List Coin) : Store × Bool :=
  if storeUsed { st with coinCollection := some cs } ≤ st.quota
  then ({ st with coinCollection := some cs }, true)
  else (st, false)

/-- `localStorage.setItem('coinCollectionMeta', metaToSave)`. -/
def setMetaItem (st : Store) (m : MetaSnapshot) : Store × Bool :=
  if storeUsed { st with coinCollectionMeta := some m } ≤ st.quota
  then ({ st with coinCollectionMeta := some m }, true)
  else (st, false)

/-- What a `saveToStorage` call leaves behind: the manager state (compression
may rewrite image fields in place), the store, the `setItem` attempts in
order (key and the serialized string passed), and whether the final log line
was a success (`'Storage saved successfully'` / `'Storage saved after
compression'`). -/
structure SaveOutcome where
  state : AppState
  store : Store
  writes : List (String × String)
  ok : Bool
deriving Repr

/-- `compressDataUrl` (script.js:1832-1860) re-encodes a data URL through a
canvas; the canvas pipeline is outside the embedding, so the resulting string
is an arbitrary function `compress` every theorem quantifies over.  This
definition is the guard `handleStorageQuotaExceeded` wraps around it:
compress only a URL longer than 100000 characters. -/
def compressUrl (compress : String → String) (u : String) : String :=
  if 100000 < u.length then compress u else u

/-- The per-coin mutation of `handleStorageQuotaExceeded`
(script.js:1790-1810): compress the main obverse/reverse images and each
`media.images` item's `data` field when longer than 100000 characters
(`coin.images.obverse && coin.images.obverse.length > 100000`; a `null` slot
is falsy and skipped).  `media.videos` and `url` fields are not touched. -/
def compressCoin (compress : String → String) (c : Coin) : Coin :=
  { c with
    images := { obverse := c.images.obverse.map (compressUrl compress),
                reverse := c.images.reverse.map (compressUrl compress) },
    media := { c.media with
               images := c.media.images.map
                 (fun mi => { mi with data := mi.data.map (compressUrl compress) }) } }

/-- Whether compressing a coin would touch anything — the condition under
which the loop sets `compressionApplied = true`. -/
def coinHasBigImage (c : Coin) : Bool :=
  (match c.images.obverse with | some u => 100000 < u.length | none => false)
  || (match c.images.reverse with | some u => 100000 < u.length | none => false)
  || c.media.images.any (fun mi =>
       match mi.data with | some u => 100000 < u.length | none => false)

/-- `handleStorageQuotaExceeded` (script.js:1784-1830): compress every
oversized image data-URL; if anything was compressed, retry both `setItem`
calls once (giving up, without further retries, if the retry still throws);
otherwise only alert — no write at all. -/
def handleStorageQuotaExceeded (compress : String → String) (s : AppState) (store : Store) :
    SaveOutcome :=
  if s.coins.any coinHasBigImage then
    if (setCoinsItem store (s.coins.map (compressCoin compress))).2 then
      ⟨{ s with coins := s.coins.map (compressCoin compress) },
       (setMetaItem (setCoinsItem store (s.coins.map (compressCoin compress))).1 (metaOf s)).1,
       [("coinCollection", stringifyCoins (s.coins.map (compressCoin compress))),
        ("coinCollectionMeta", stringifyMeta (metaOf s))],
       (setMetaItem (setCoinsItem store (s.coins.map (compressCoin compress))).1 (metaOf s)).2⟩
    else
      ⟨{ s with coins := s.coins.map (compressCoin compress) },
       (setCoinsItem store (s.coins.map (compressCoin compress))).1,
       [("coinCollection", stringifyCoins (s.coins.map (compressCoin compress)))],
       false⟩
  else
    ⟨{ s with coins := s.coins.map (compressCoin compress) }, store, [], false⟩

/-- `saveToStorage` (script.js:1731-1770): serialize coins and metadata; if
the estimated size — twice the combined string length, for UTF-16 — exceeds
the 4 MB threshold, go straight to the quota handler without writing;
otherwise write both keys, falling into the quota handler when a `setItem`
throws `QuotaExceededError` (the first key's successful write, if any,
survives, since the exception interrupts between the two calls). -/
def saveToStorage (compress : String → String) (s : AppState) (store : Store) : SaveOutcome :=
  if 4 * 1024 * 1024 < ((stringifyCoins s.coins).length + (stringifyMeta (metaOf s)).length) * 2
  then handleStorageQuotaExceeded compress s store
  else if (setCoinsItem store s.coins).2 then
    if (setMetaItem (setCoinsItem store s.coins).1 (metaOf s)).2 then
      ⟨s, (setMetaItem (setCoinsItem store s.coins).1 (metaOf s)).1,
       [("coinCollection", stringifyCoins s.coins),
        ("coinCollectionMeta", stringifyMeta (metaOf s))],
       true⟩
    else
      ⟨(handleStorageQuotaExceeded compress s (setCoinsItem store s.coins).1).state,
       (handleStorageQuotaExceeded compress s (setCoinsItem store s.coins).1).store,
       [("coinCollection", stringifyCoins s.coins),
        ("coinCollectionMeta", stringifyMeta (metaOf s))] ++
         (handleStorageQuotaExceeded compress s (setCoinsItem store s.coins).1).writes,
       (handleStorageQuotaExceeded compress s (setCoinsItem store s.coins).1).ok⟩
  else
    ⟨(handleStorageQuotaExceeded compress s store).state,
     (handleStorageQuotaExceeded compress s store).store,
     [("coinCollection", stringifyCoins s.coins)] ++
       (handleStorageQuotaExceeded compress s store).writes,
     (handleStorageQuotaExceeded compress s store).ok⟩

/-- `loadFromStorage` (script.js:1893-1907).  `metaData.nextCoinId || 1` and
`metaData.nextAnnotationId || 1000` fall back on a falsy (zero) stored value,
modelled by the zero tests; `new Set(metaData.expandedCoins || [])` keeps the
first occurrence of each element, modelled by `dedup` (an array, even empty,
is truthy, so the `|| []` never fires on a stored array). -/
def loadFromStorage (store : Store) (s : AppState) : AppState :=
  match store.coinCollection, store.coinCollectionMeta with
  | some cs, some md =>
    { s with coins := cs,
             nextCoinId := if md.nextCoinId = 0 then 1 else md.nextCoinId,
             nextAnnotationId := if md.nextAnnotationId = 0 then 1000 else md.nextAnnotationId,
             expandedCoins := md.expandedCoins.dedup }
  | some cs, none => { s with coins := cs }
  | none, some md =>
    { s with nextCoinId := if md.nextCoinId = 0 then 1 else md.nextCoinId,
             nextAnnotationId := if md.nextAnnotationId = 0 then 1000 else md.nextAnnotationId,
             expandedCoins := md.expandedCoins.dedup }
  | none, none => s

/-- The sample coin's obverse markers (script.js:293-296). -/
def sampleObverseMarkers : List Marker :=
  [⟨1001, 150, 100, "Portrait", "#f97316"⟩, ⟨1002, 200, 250, "Date Area", "#06b6d4"⟩]

/-- The sample coin's reverse marker (script.js:297-299). -/
def sampleReverseMarkers : List Marker :=
  [⟨1003, 180, 120, "Main Device", "#ef4444"⟩]

/-- The fixed valuation scenarios every new coin starts with
(script.js:321-325). -/
def defaultScenarios : ValuationScenarios :=
  ⟨⟨5, 40, "Common circulated coin"⟩,
   ⟨20, 200, "Silver content value"⟩,
   ⟨200, 5000, "Rare or high-grade collectible"⟩⟩

/-- The coin object `addCoin` builds (script.js:278-331) for id `cid` (the
pre-increment value of `nextCoinId`); `now` is `new Date().toISOString()`. -/
def newCoin (isSample : Bool) (cid : Nat) (now : String) : Coin :=
  { id := cid,
    title := if isSample then "Sample Coin" else "Coin " ++ toString cid,
    description := if isSample then
        "This is a sample coin to demonstrate the application features. Upload your own images and start documenting your collection."
      else
        "New coin added to collection. Add images and detailed information.",
    images := {},
    media := {},
    annotations := [("obverse", if isSample then sampleObverseMarkers else []),
                    ("reverse", if isSample then sampleReverseMarkers else [])],
    metadata := {},
    condition := {},
    valuation := { scenarios := defaultScenarios },
    notes := "",
    created := now,
    modified := now }

/-- `addCoin` (script.js:277-344) as a state transformation: push the new
coin and advance `nextCoinId`.  The `renderCoins` DOM update, the
`saveToStorage` call (modelled separately) and the delayed auto-expansion are
effects outside the collection state. -/
def addCoin (isSample : Bool) (now : String) (s : AppState) : AppState :=
  { s with coins := s.coins ++ [newCoin isSample s.nextCoinId now],
           nextCoinId := s.nextCoinId + 1 }

/-- Key lookup in the `annotations` object: `coin.annotations[side]`,
`none` for an absent property (JavaScript `undefined`). -/
def alGet (al : List (String × List Marker)) (k : String) : Option (List Marker) :=
  (al.find? (fun p => p.1 = k)).map (fun p => p.2)

/-- Property assignment `coin.annotations[k] = v`: overwrite in place, or add
the key at the end when absent. -/
def alSet : List (String × List Marker) → String → List Marker → List (String × List Marker)
  | [], k, v => [(k, v)]
  | p :: t, k, v => if p.1 = k then (k, v) :: t else p :: alSet t k v

/-- The quick-annotation color palette (script.js:1167). -/
def colors : List String :=
  ["#f97316", "#06b6d4", "#ef4444", "#10b981", "#8b5cf6", "#f59e0b"]

/-- JavaScript `a || b` on nullable strings: an absent or empty string falls
through. -/
def jsOrStr (a b : Option String) : Option String :=
  match a with
  | some v => if v = "" then b else some v
  | none => b

/-- Replace the coin `this.coins.find(c => c.id === coinId)` found — the
first with that id — by `c'`. -/
def replaceFirstCoin : List Coin → Nat → Coin → List Coin
  | [], _, _ => []
  | c :: t, cid, c' => if c.id = cid then c' :: t else c :: replaceFirstCoin t cid c'

/-- `addAnnotation` (script.js:1160-1186): a no-op outside annotate mode or
for an unknown coin id; for a `side` missing from the coin's annotations
object the JavaScript throws a `TypeError` reading
`coin.annotations[side].length` before mutating anything (`none` here);
otherwise mint an id from `nextAnnotationId++`, pick the color by list
length, push, and clear `quickAnnotationType`. -/
def addAnnotation (coinId : Nat) (side : String) (x y : Int) (label : Option String)
    (s : AppState) : Option AppState :=
  if s.currentMode ≠ "annotate" then some s
  else match s.coins.find? (fun c => c.id = coinId) with
  | none => some s
  | some coin =>
    match alGet coin.annotations side with
    | none => none
    | some lst =>
      let annotationLabel := (jsOrStr (jsOrStr label s.quickAnnotationType)
        (some "New annotation")).getD ""
      let color := colors.getD (lst.length % colors.length) ""
      let ann : Marker := ⟨s.nextAnnotationId, x, y, annotationLabel, color⟩
      let coin' := { coin with annotations := alSet coin.annotations side (lst ++ [ann]) }
      some { s with coins := replaceFirstCoin s.coins coinId coin',
                    nextAnnotationId := s.nextAnnotationId + 1,
                    quickAnnotationType := none }

/-- `Object.assign` of `{ label, color }` (the updates `saveAnnotation`
passes) onto the first marker of a list carrying the id, as
`coin.annotations[side].find(a => a.id === annotationId)` selects it. -/
def updFirstMarker (annotationId : Nat) (label color : String) : List Marker → List Marker
  | [] => []
  | a :: t =>
    if a.id = annotationId then { a with label := label, color := color } :: t
    else a :: updFirstMarker annotationId label color t

/-- One coin's step of `updateAnnotation` (script.js:1188-1199), which reads
`coin.annotations[side]` for both sides: `none` (a thrown `TypeError`) when a
side key is missing. -/
def updateCoinAnn (annotationId : Nat) (label color : String) (c : Coin) : Option Coin :=
  match alGet c.annotations "obverse", alGet c.annotations "reverse" with
  | some ob, some rv =>
    let upd := alSet (alSet c.annotations "obverse" (updFirstMarker annotationId label color ob))
      "reverse" (updFirstMarker annotationId label color rv)
    some { c with annotations := upd }
  | _, _ => none

/-- `updateAnnotation` over the whole collection. -/
def updateAnnotation (annotationId : Nat) (label color : String) (s : AppState) :
    Option AppState :=
  (s.coins.mapM (updateCoinAnn annotationId label color)).map
    (fun cl => { s with coins := cl })

/-- One coin's step of `removeAnnotation` (script.js:1201-1207):
`coin.annotations[side] = coin.annotations[side].filter(a => a.id !==
annotationId)` for both sides. -/
def removeCoinAnn (annotationId : Nat) (c : Coin) : Option Coin :=
  match alGet c.annotations "obverse", alGet c.annotations "reverse" with
  | some ob, some rv =>
    let upd := alSet (alSet c.annotations "obverse" (ob.filter (fun a => a.id ≠ annotationId)))
      "reverse" (rv.filter (fun a => a.id ≠ annotationId))
    some { c with annotations := upd }
  | _, _ => none

/-- `removeAnnotation` over the whole collection. -/
def removeAnnotation (annotationId : Nat) (s : AppState) : Option AppState :=
  (s.coins.mapM (removeCoinAnn annotationId)).map (fun cl => { s with coins := cl })

/-- Every annotation id in the collection, sides in key order. -/
def allAnnotationIds (s : AppState) : List Nat :=
  s.coins.flatMap (fun c => c.annotations.flatMap (fun p => p.2.map (fun a => a.id)))

/-- The invariant C4 states: every coin's annotations object has exactly the
keys `obverse` and `reverse`, in that order. -/
def TwoSided (s : AppState) : Prop :=
  ∀ c ∈ s.coins, c.annotations.map Prod.fst = ["obverse", "reverse"]

instance (s : AppState) : Decidable (TwoSided s) := by
  unfold TwoSided; infer_instance

/-- An initialized AI service: its `analyze(files, options)` either resolves
(`Except.ok`) or rejects/throws (`Except.error`, carrying the error's
message).  The input type `ι` stands for the `(files, options)` pair and `ρ`
for the result object, both opaque to the orchestrator. -/
structure AIService (ι ρ : Type) where
  analyze : ι → Except String ρ

/-- The `aiServices` record of `ai-orchestrator.js`: each slot is `null`
until its initialization promise resolves. -/
structure AIServices (ι ρ : Type) where
  proxy : Option (AIService ι ρ)
  public : Option (AIService ι ρ)
  offline : Option (AIService ι ρ)

/-- The offline stage of `analyzeCoinImages`: `return
aiServices.offline.analyze(...)` is not wrapped in a `try`, so its error
propagates; with no offline service the orchestrator throws
`'AI services are not ready yet.'`. -/
def analyzeOfflineStage {ι ρ : Type} (svc : AIServices ι ρ) (input : ι) : Except String ρ :=
  match svc.offline with
  | some o => o.analyze input
  | none => .error "AI services are not ready yet."

/-- The public stage: a present public service is tried, its throw only
logged (`console.warn`) before falling through to the offline stage. -/
def analyzePublicStage {ι ρ : Type} (svc : AIServices ι ρ) (input : ι) : Except String ρ :=
  match svc.public with
  | some pb =>
    match pb.analyze input with
    | .ok r => .ok r
    | .error _ => analyzeOfflineStage svc input
  | none => analyzeOfflineStage svc input

/-- `analyzeCoinImages` (ai-orchestrator.js): proxy first, then public, then
offline. -/
def analyzeCoinImages {ι ρ : Type} (svc : AIServices ι ρ) (input : ι) : Except String ρ :=
  match svc.proxy with
  | some p =>
    match p.analyze input with
    | .ok r => .ok r
    | .error _ => analyzePublicStage svc input
  | none => analyzePublicStage svc input

/-- The `{ success, message }` object the proxy and public stubs resolve
with. -/
structure AnalyzeReply where
  success : Bool
  message : String
deriving DecidableEq, Repr

/-- `initializeProxyModel` (proxyModel.js): resolves to a client whose
`analyze` always resolves to `{ success: false, message: 'Proxy AI analysis
not available' }`. -/
def initializeProxyModel {ι : Type} : AIService ι AnalyzeReply :=
  ⟨fun _ => .ok ⟨false, "Proxy AI analysis not available"⟩⟩

/-- `initializePublicModel` (publicModel.js): same shape with the public
message. -/
def initializePublicModel {ι : Type} : AIService ι AnalyzeReply :=
  ⟨fun _ => .ok ⟨false, "Public AI analysis not available"⟩⟩

/-- JavaScript `parseFloat` on the number literals the valuation form holds:
skip leading whitespace, optional sign, then decimal digits with an optional
fraction and exponent; `none` when no digit is read (`NaN`).  (`Infinity`
literals, which never arise here, are out of the model.) -/
def parseFloatQ (s : String) : Option ℚ :=
  let cs := s.data.dropWhile (fun c => c = ' ' || c = '\t' || c = '\n' || c = '\r')
  let sign : ℚ := if cs.head? = some '-' then -1 else 1
  let cs := if cs.head? = some '-' || cs.head? = some '+' then cs.tail else cs
  let intDigits := cs.takeWhile Char.isDigit
  let rest := cs.dropWhile Char.isDigit
  let fracDigits := if rest.head? = some '.' then rest.tail.takeWhile Char.isDigit else []
  let afterFrac := if rest.head? = some '.' then rest.tail.dropWhile Char.isDigit else rest
  if intDigits = [] ∧ fracDigits = [] then none
  else
    let intVal : ℚ := intDigits.foldl (fun a c => a * 10 + (digitVal c : ℚ)) 0
    let fracVal : ℚ := fracDigits.foldl (fun a c => a * 10 + (digitVal c : ℚ)) 0
    let base : ℚ := intVal + fracVal / ((10 : ℚ) ^ fracDigits.length)
    let expPart : List Char :=
      if afterFrac.head? = some 'e' || afterFrac.head? = some 'E' then afterFrac.tail else []
    let expSign : Bool := expPart.head? = some '-'
    let expDigits := (if expPart.head? = some '-' || expPart.head? = some '+'
      then expPart.tail else expPart).takeWhile Char.isDigit
    let expVal := expDigits.foldl (fun a c => a * 10 + digitVal c) 0
    let scaled :=
      if expDigits = [] then base
      else if expSign then base / ((10 : ℚ) ^ expVal) else base * ((10 : ℚ) ^ expVal)
    some (sign * scaled)

/-- `const basePrice = parseFloat(coin.valuation.currentEstimate) || 100`
(script.js:2168): `NaN` and `0` are both falsy. -/
def basePriceOf (coin : Coin) : ℚ :=
  match parseFloatQ coin.valuation.currentEstimate with
  | none => 100
  | some v => if v = 0 then 100 else v

/-- `Math.round`: round half towards positive infinity. -/
def jsRound (x : ℚ) : Int := Int.floor (x + 1 / 2)

/-- Uppercase hexadecimal digit. -/
def hexUpper (n : Nat) : Char := if n < 10 then Char.ofNat (48 + n) else Char.ofNat (55 + n)

/-- One character of `encodeURIComponent` output: unreserved characters pass,
everything else is the percent-encoding of its UTF-8 bytes. -/
def encodeURIChar (c : Char) : List Char :=
  if c.isAlphanum || c = '-' || c = '_' || c = '.' || c = '!' || c = '~' ||
     c = '*' || c = '\'' || c = '(' || c = ')' then [c]
  else
    (String.singleton c).toUTF8.toList.flatMap
      (fun b => ['%', hexUpper (b.toNat / 16), hexUpper (b.toNat % 16)])

/-- `encodeURIComponent`. -/
def encodeURIComponent (s : String) : String := String.mk (s.data.flatMap encodeURIChar)

/-- One entry of the mock search-result list. -/
structure SearchResult where
  title : String
  price : String
  condition : String
  source : String
  url : String
  image : String
  description : String
  soldDate : String
deriving DecidableEq, Repr

/-- `simulateWebSearch` (script.js:2163-2257).  The `setTimeout` delay is
dropped; the nine `Math.random()` values drawn while the array literal is
evaluated (one per price, two for the PCGS range) become `rnd 0` … `rnd 8`.
`const year = parseInt(...)` is computed but never used and is omitted;
`country` defaults when the metadata field is the empty string. -/
def simulateWebSearch (query : String) (coin : Coin) (rnd : Nat → ℚ) : List SearchResult :=
  let basePrice := basePriceOf coin
  let country := if coin.metadata.country = "" then "United States" else coin.metadata.country
  [{ title := coin.metadata.year ++ " " ++ country ++ " " ++ coin.metadata.denomination ++
       " - Heritage Auctions",
     price := "$" ++ toString (jsRound (basePrice * (8 / 10 + rnd 0 * (4 / 10)))),
     condition := "MS-65",
     source := "Heritage Auctions",
     url := "https://coins.ha.com/search?q=" ++ encodeURIComponent query,
     image := "https://via.placeholder.com/120x120/8B4513/FFFFFF?text=Coin",
     description := "Certified " ++ coin.metadata.denomination ++
       " in excellent condition. Well-struck example with original luster.",
     soldDate := "2024-01-15" },
   { title := coin.metadata.year ++ " " ++ coin.metadata.denomination ++ " PCGS Graded - eBay",
     price := "$" ++ toString (jsRound (basePrice * (6 / 10 + rnd 1 * (8 / 10)))),
     condition := "AU-58",
     source := "eBay",
     url := "https://www.ebay.com/sch/i.html?_nkw=" ++ encodeURIComponent query,
     image := "https://via.placeholder.com/120x120/DAA520/FFFFFF?text=eBay",
     description := "PCGS certified coin with minimal wear. Popular collector item.",
     soldDate := "2024-02-03" },
   { title := country ++ " " ++ coin.metadata.denomination ++ " Price Guide - PCGS",
     price := "$" ++ toString (jsRound (basePrice * (9 / 10 + rnd 2 * (2 / 10)))) ++ " - $" ++
       toString (jsRound (basePrice * (11 / 10 + rnd 3 * (3 / 10)))),
     condition := "Various",
     source := "PCGS Price Guide",
     url := "https://www.pcgs.com/prices",
     image := "https://via.placeholder.com/120x120/228B22/FFFFFF?text=PCGS",
     description := "Current market values for " ++ coin.metadata.denomination ++
       " coins in various grades.",
     soldDate := "Current" },
   { title := coin.metadata.year ++ " " ++ coin.metadata.denomination ++ " - Stack\x27s Bowers",
     price := "$" ++ toString (jsRound (basePrice * (11 / 10 + rnd 4 * (4 / 10)))),
     condition := "MS-64",
     source := "Stack\x27s Bowers",
     url := "https://www.stacksbowers.com/search?q=" ++ encodeURIComponent query,
     image := "https://via.placeholder.com/120x120/A0522D/FFFFFF?text=SB",
     description := "Professional numismatic auction house. Includes full provenance and detailed imagery.",
     soldDate := "2024-01-28" },
   { title := coin.metadata.year ++ " " ++ coin.metadata.denomination ++ " NGC Certified",
     price := "$" ++ toString (jsRound (basePrice * (9 / 10 + rnd 5 * (3 / 10)))),
     condition := "MS-63",
     source := "NGC Registry",
     url := "https://www.ngccoin.com/price-guide/",
     image := "https://via.placeholder.com/120x120/CD853F/FFFFFF?text=NGC",
     description := "NGC certified example with detailed population reports and market analysis.",
     soldDate := "2024-02-10" },
   { title := coin.metadata.year ++ " " ++ coin.metadata.denomination ++ " Auction Record",
     price := "$" ++ toString (jsRound (basePrice * (12 / 10 + rnd 6 * (5 / 10)))),
     condition := "MS-66",
     source := "Coin World",
     url := "https://www.coinworld.com/search?q=" ++ encodeURIComponent query,
     image := "https://via.placeholder.com/120x120/5D2F0A/FFFFFF?text=CW",
     description := "Recent auction record for premium grade example. Market trending upward.",
     soldDate := "2024-01-20" },
   { title := country ++ " " ++ coin.metadata.denomination ++ " Collector Forum",
     price := "$" ++ toString (jsRound (basePrice * (7 / 10 + rnd 7 * (6 / 10)))),
     condition := "VF-30",
     source := "CoinTalk Forum",
     url := "https://www.cointalk.com/search/?q=" ++ encodeURIComponent query,
     image := "https://via.placeholder.com/120x120/654321/FFFFFF?text=CT",
     description := "Community discussion and recent sales data from collector forums.",
     soldDate := "2024-02-05" },
   { title := coin.metadata.year ++ " " ++ coin.metadata.denomination ++ " Variety Guide",
     price := "$" ++ toString (jsRound (basePrice * (5 / 10 + rnd 8 * 1))),
     condition := "Various",
     source := "CONECA",
     url := "https://www.conecaonline.org/",
     image := "https://via.placeholder.com/120x120/8B7355/FFFFFF?text=VAR",
     description := "Variety and error coin information with pricing for different die states.",
     soldDate := "Reference" }]

/-- The proxy stage yields no result on this input: the service is
uninitialized, or its `analyze` call throws. -/
def ProxyFails {ι ρ : Type} (svc : AIServices ι ρ) (input : ι) : Prop :=
  ∀ p, svc.proxy = some p → ∃ e, p.analyze input = .error e

/-- The public stage yields no result on this input. -/
def PublicFails {ι ρ : Type} (svc : AIServices ι ρ) (input : ι) : Prop :=
  ∀ pb, svc.public = some pb → ∃ e, pb.analyze input = .error e

/-- A service table whose proxy is initialized but throws, public and offline
uninitialized — the C8 counterexample input. -/
def brokenProxyServices : AIServices Unit Unit :=
  ⟨some ⟨fun _ => .error "proxy crash"⟩, none, none⟩

/-- How many `setItem` attempts in a write log target the key `k`. -/
def writesTo (log : List (String × String)) (k : String) : Nat :=
  log.countP (fun e => e.1 = k)

/-- What the claim says compression does to one coin: every stored image
data-URL longer than 100000 characters — main obverse/reverse image or a
media item's `data` field — is replaced by its compressed form, and every
other field is untouched. -/
def CompressesBigImages (compress : String → String) (c c' : Coin) : Prop :=
  c'.images.obverse = c.images.obverse.map (fun u => if 100000 < u.length then compress u else u)
  ∧ c'.images.reverse = c.images.reverse.map (fun u => if 100000 < u.length then compress u else u)
  ∧ c'.media.images = c.media.images.map (fun mi => { mi with data := mi.data.map (fun u => if 100000 < u.length then compress u else u) })
  ∧ c'.media.videos = c.media.videos
  ∧ c'.id = c.id ∧ c'.title = c.title ∧ c'.description = c.description
  ∧ c'.annotations = c.annotations ∧ c'.metadata = c.metadata
  ∧ c'.condition = c.condition ∧ c'.valuation = c.valuation
  ∧ c'.notes = c.notes ∧ c'.created = c.created ∧ c'.modified = c.modified

theorem curatedLe_trans : ∀ a b c : MediaItem,
    curatedLe a b = true → curatedLe b c = true → curatedLe a c = true := by
  intro a b c
  unfold curatedLe
  cases isCuratedB a <;> cases isCuratedB b <;> cases isCuratedB c <;> simp

theorem curatedLe_total : ∀ a b : MediaItem, (curatedLe a b || curatedLe b a) = true := by
  intro a b
  unfold curatedLe
  cases isCuratedB a <;> cases isCuratedB b <;> simp

theorem pairwise_curated_split {l : List MediaItem}
    (h : l.Pairwise (fun a b => curatedLe a b = true)) :
    l = l.filter isCuratedB ++ l.filter (fun m => !isCuratedB m) := by
  induction l with
  | nil => rfl
  | cons a t ih =>
    rcases List.pairwise_cons.mp h with ⟨ha, ht⟩
    by_cases hc : isCuratedB a = true
    · rw [List.filter_cons, List.filter_cons, if_pos hc, if_neg (by simp [hc]),
        List.cons_append]
      exact congrArg (a :: ·) (ih ht)
    · have hnc : isCuratedB a = false := by revert hc; cases isCuratedB a <;> simp
      have hall : ∀ b ∈ t, isCuratedB b = false := by
        intro b hb
        have hab := ha b hb
        revert hab
        unfold curatedLe
        rw [hnc]
        cases isCuratedB b <;> simp
      have h1 : t.filter isCuratedB = [] := List.filter_eq_nil_iff.mpr (by
        intro b hb; rw [hall b hb]; simp)
      have h2 : t.filter (fun m => !isCuratedB m) = t := List.filter_eq_self.mpr (by
        intro b hb; rw [hall b hb]; rfl)
      rw [List.filter_cons, List.filter_cons, if_neg (by simp [hnc]), if_pos (by simp [hnc]),
        h1, h2, List.nil_append]

theorem curated_filter_sub (l : List MediaItem) :
    List.Sublist (l.filter isCuratedB) (l.mergeSort curatedLe) := by
  apply List.sublist_mergeSort curatedLe_trans curatedLe_total
  · apply List.pairwise_of_forall_mem_list
    intro a hha b hhb
    have ha' := List.of_mem_filter hha
    unfold curatedLe
    rw [ha']
    simp
  · exact List.filter_sublist l

theorem uncurated_filter_sub (l : List MediaItem) :
    List.Sublist (l.filter (fun m => !isCuratedB m)) (l.mergeSort curatedLe) := by
  apply List.sublist_mergeSort curatedLe_trans curatedLe_total
  · apply List.pairwise_of_forall_mem_list
    intro a hha b hhb
    have hb' := (List.mem_filter.mp hhb).2
    have hb2 : isCuratedB b = false := by revert hb'; cases isCuratedB b <;> simp
    unfold curatedLe
    rw [hb2]
    simp
  · exact List.filter_sublist l

theorem sub_filter_self {p : MediaItem → Bool} {l l2 : List MediaItem}
    (hall : ∀ a ∈ l, p a = true) (hsub : List.Sublist l l2) :
    List.Sublist l (l2.filter p) := by
  have h0 := List.Sublist.filter p hsub
  rwa [List.filter_eq_self.mpr hall] at h0

theorem curated_sort_split (l : List MediaItem) :
    l.mergeSort curatedLe = l.filter isCuratedB ++ l.filter (fun m => !isCuratedB m) := by
  have hperm := List.mergeSort_perm l curatedLe
  have hpair := List.sorted_mergeSort curatedLe_trans curatedLe_total l
  have hsplit := pairwise_curated_split hpair
  have eqT : (l.mergeSort curatedLe).filter isCuratedB = l.filter isCuratedB := by
    have hsub2 : List.Sublist (l.filter isCuratedB)
        ((l.mergeSort curatedLe).filter isCuratedB) :=
      sub_filter_self (fun a hha => List.of_mem_filter hha) (curated_filter_sub l)
    have hlen : ((l.mergeSort curatedLe).filter isCuratedB).length =
        (l.filter isCuratedB).length := (hperm.filter isCuratedB).length_eq
    exact (hsub2.eq_of_length hlen.symm).symm
  have eqF : (l.mergeSort curatedLe).filter (fun m => !isCuratedB m) =
      l.filter (fun m => !isCuratedB m) := by
    have hsub2 : List.Sublist (l.filter (fun m => !isCuratedB m))
        ((l.mergeSort curatedLe).filter (fun m => !isCuratedB m)) :=
      sub_filter_self (p := fun m => !isCuratedB m)
        (fun a hha => (List.mem_filter.mp hha).2) (uncurated_filter_sub l)
    have hlen := (hperm.filter (fun m => !isCuratedB m)).length_eq
    exact (hsub2.eq_of_length hlen.symm).symm
  exact hsplit.trans (by rw [eqT, eqF])

theorem chronoLe_trans : ∀ a b c : MediaItem,
    chronoLe a b = true → chronoLe b c = true → chronoLe a c = true := by
  intro a b c
  simp only [chronoLe, decide_eq_true_eq]
  omega

theorem chronoLe_total : ∀ a b : MediaItem, (chronoLe a b || chronoLe b a) = true := by
  intro a b
  simp only [chronoLe, Bool.or_eq_true, decide_eq_true_eq]
  omega

theorem titleLe_trans : ∀ a b c : MediaItem,
    titleLe a b = true → titleLe b c = true → titleLe a c = true := by
  intro a b c
  simp only [titleLe, decide_eq_true_eq]
  exact le_trans

theorem titleLe_total : ∀ a b : MediaItem, (titleLe a b || titleLe b a) = true := by
  intro a b
  simp only [titleLe, Bool.or_eq_true, decide_eq_true_eq]
  exact le_total _ _

theorem typeLe_trans : ∀ a b c : MediaItem,
    typeLe a b = true → typeLe b c = true → typeLe a c = true := by
  intro a b c
  simp only [typeLe, decide_eq_true_eq]
  exact le_trans

theorem typeLe_total : ∀ a b : MediaItem, (typeLe a b || typeLe b a) = true := by
  intro a b
  simp only [typeLe, Bool.or_eq_true, decide_eq_true_eq]
  exact le_total _ _

/-- C7: `applyMediaSort` returns a permutation of its (unmutated, since the
embedding is pure and the source sorts a spread copy) input in every mode; in
`'curated'` mode the result is exactly the curated items followed by the
uncurated ones, each block in original relative order (the stable-sort
characterization); in `'chronological'` mode it is ordered by upload date
descending with missing dates treated as the epoch; in `'title'` mode by
case-insensitive title; in `'type'` mode by the type string; and any
unrecognized mode returns the list in its original order. -/
theorem applyMediaSort_spec (l : List MediaItem) :
    (∀ mode, (applyMediaSort mode l).Perm l)
    ∧ applyMediaSort "curated" l = l.filter isCuratedB ++ l.filter (fun m => !isCuratedB m)
    ∧ List.Pairwise (fun a b => mediaDateMs b ≤ mediaDateMs a) (applyMediaSort "chronological" l)
    ∧ List.Pairwise (fun a b => titleKey a ≤ titleKey b) (applyMediaSort "title" l)
    ∧ List.Pairwise (fun a b => a.type.getD "" ≤ b.type.getD "") (applyMediaSort "type" l)
    ∧ ∀ mode, mode ≠ "curated" → mode ≠ "chronological" → mode ≠ "title" → mode ≠ "type" →
        applyMediaSort mode l = l := by
  refine ⟨?_, ?_, ?_, ?_, ?_, ?_⟩
  · intro mode
    unfold applyMediaSort
    repeat' split
    any_goals exact List.mergeSort_perm _ _
    exact List.Perm.refl l
  · show (if "curated" = "curated" then l.mergeSort curatedLe else _) = _
    rw [if_pos rfl]
    exact curated_sort_split l
  · have h : applyMediaSort "chronological" l = l.mergeSort chronoLe := by
      unfold applyMediaSort
      rw [if_neg (by decide), if_pos rfl]
    rw [h]
    exact (List.sorted_mergeSort chronoLe_trans chronoLe_total l).imp
      (fun hab => by simpa [chronoLe] using hab)
  · have h : applyMediaSort "title" l = l.mergeSort titleLe := by
      unfold applyMediaSort
      rw [if_neg (by decide), if_neg (by decide), if_pos rfl]
    rw [h]
    exact (List.sorted_mergeSort titleLe_trans titleLe_total l).imp
      (fun hab => by simpa [titleLe] using hab)
  · have h : applyMediaSort "type" l = l.mergeSort typeLe := by
      unfold applyMediaSort
      rw [if_neg (by decide), if_neg (by decide), if_neg (by decide), if_pos rfl]
    rw [h]
    exact (List.sorted_mergeSort typeLe_trans typeLe_total l).imp
      (fun hab => by simpa [typeLe] using hab)
  · intro mode h1 h2 h3 h4
    unfold applyMediaSort
    rw [if_neg h1, if_neg h2, if_neg h3, if_neg h4]

/-- C6: `applyMediaFilter` with `'all'` returns the list unchanged, and with
each recognized filter returns exactly the items satisfying that filter's
predicate (`isFeatured === true`, `source === 'ai'`, tags including
`'macro'`, `type === 'video'`, `allowAnnotations === true`), in their
original relative order; every result is a sublist of the input. -/
theorem applyMediaFilter_spec (l : List MediaItem) :
    applyMediaFilter l "all" = l
    ∧ applyMediaFilter l "featured" = l.filter (fun m => m.isFeatured = some true)
    ∧ applyMediaFilter l "ai" = l.filter (fun m => m.source = some "ai")
    ∧ applyMediaFilter l "macro" = l.filter (fun m =>
        match m.tags with | some ts => ts.contains "macro" | none => false)
    ∧ applyMediaFilter l "video" = l.filter (fun m => m.type = some "video")
    ∧ applyMediaFilter l "annotated" = l.filter (fun m => m.allowAnnotations = some true)
    ∧ ∀ f, List.Sublist (applyMediaFilter l f) l := by
  refine ⟨rfl, rfl, rfl, rfl, rfl, rfl, ?_⟩
  intro f
  unfold applyMediaFilter
  split
  · exact List.Sublist.refl l
  · exact List.filter_sublist l

/-- C8 (amended): `analyzeCoinImages` consults proxy, then public, then
offline, in that order, returning the first result whose `analyze` call does
not throw — including results that report failure — and it throws
`'AI services are not ready yet.'` exactly when no service can answer: the
offline service is uninitialized and each of proxy and public is either
uninitialized or throws on this input (so the error can also arise with
proxy or public initialized, not only when none of the three is). -/
theorem analyzeCoinImages_spec {ι ρ : Type} (svc : AIServices ι ρ) (input : ι) :
    (∀ p r, svc.proxy = some p → p.analyze input = .ok r →
        analyzeCoinImages svc input = .ok r)
    ∧ (∀ pb r, ProxyFails svc input → svc.public = some pb → pb.analyze input = .ok r →
        analyzeCoinImages svc input = .ok r)
    ∧ (∀ o, ProxyFails svc input → PublicFails svc input → svc.offline = some o →
        analyzeCoinImages svc input = o.analyze input)
    ∧ (ProxyFails svc input → PublicFails svc input → svc.offline = none →
        analyzeCoinImages svc input = .error "AI services are not ready yet.")
    ∧ (analyzeCoinImages svc input = .error "AI services are not ready yet." →
        svc.offline = none ∨ ∃ o, svc.offline = some o ∧
          o.analyze input = .error "AI services are not ready yet.") := by
  obtain ⟨pr, pb, off⟩ := svc
  refine ⟨?_, ?_, ?_, ?_, ?_⟩
  · intro p r hp hok
    cases hp
    simp [analyzeCoinImages, hok]
  · intro pbs r hpf hpb hok
    cases hpb
    cases pr with
    | none => simp [analyzeCoinImages, analyzePublicStage, hok]
    | some p =>
      obtain ⟨e, he⟩ := hpf p rfl
      simp [analyzeCoinImages, analyzePublicStage, he, hok]
  · intro o hpf hbf hoff
    cases hoff
    have hoffstage : analyzeOfflineStage ⟨pr, pb, some o⟩ input = o.analyze input := by
      simp [analyzeOfflineStage]
    have hpub : analyzePublicStage ⟨pr, pb, some o⟩ input = o.analyze input := by
      cases pb with
      | none => simpa [analyzePublicStage] using hoffstage
      | some q =>
        obtain ⟨e, he⟩ := hbf q rfl
        simp [analyzePublicStage, he, hoffstage]
    cases pr with
    | none => simpa [analyzeCoinImages] using hpub
    | some p =>
      obtain ⟨e, he⟩ := hpf p rfl
      simp [analyzeCoinImages, he, hpub]
  · intro hpf hbf hoff
    cases hoff
    have hpub : analyzePublicStage ⟨pr, pb, none⟩ input =
        .error "AI services are not ready yet." := by
      cases pb with
      | none => simp [analyzePublicStage, analyzeOfflineStage]
      | some q =>
        obtain ⟨e, he⟩ := hbf q rfl
        simp [analyzePublicStage, he, analyzeOfflineStage]
    cases pr with
    | none => simpa [analyzeCoinImages] using hpub
    | some p =>
      obtain ⟨e, he⟩ := hpf p rfl
      simp [analyzeCoinImages, he, hpub]
  · intro hres
    cases off with
    | none => exact Or.inl rfl
    | some o =>
      refine Or.inr ⟨o, rfl, ?_⟩
      revert hres
      unfold analyzeCoinImages analyzePublicStage analyzeOfflineStage
      cases pr with
      | none =>
        cases pb with
        | none => simp
        | some q => cases hq : q.analyze input <;> simp [hq]
      | some p =>
        cases hp : p.analyze input with
        | ok r => simp [hp]
        | error e =>
          cases pb with
          | none => simp [hp]
          | some q => cases hq : q.analyze input <;> simp [hp, hq]

/-- C8 counterexample: with a proxy service that is initialized but whose
`analyze` throws, and public and offline uninitialized, the orchestrator
still throws `'AI services are not ready yet.'` — so the error is not thrown
"exactly when none of the three services has been initialized". -/
theorem notReady_despite_initialized :
    analyzeCoinImages brokenProxyServices () = .error "AI services are not ready yet."
    ∧ ¬ (brokenProxyServices.proxy = none ∧ brokenProxyServices.public = none
          ∧ brokenProxyServices.offline = none) := by
  constructor
  · rfl
  · intro h
    exact Option.noConfusion h.1

/-- C9: the proxy and public AI model stubs never produce an analysis — for
every input, the `analyze` function of the client `initializeProxyModel`
always resolves to `success: false` carrying message
`'Proxy AI analysis not available'`, and `initializePublicModel`'s to
`success: false` with `'Public AI analysis not available'`. -/
theorem stub_models_never_analyze : ∀ (ι : Type) (input : ι),
    (initializeProxyModel (ι := ι)).analyze input =
      .ok ⟨false, "Proxy AI analysis not available"⟩
    ∧ (initializePublicModel (ι := ι)).analyze input =
      .ok ⟨false, "Public AI analysis not available"⟩ :=
  fun _ _ => ⟨rfl, rfl⟩

/-- C10 (amended): `simulateWebSearch` consults no external data: for every
query, coin and random stream it returns exactly 8 results whose `source`
fields are the fixed sequence Heritage Auctions, eBay, PCGS Price Guide,
Stack's Bowers, NGC Registry, Coin World, CoinTalk Forum, CONECA; titles,
conditions, descriptions, sold dates and images are determined by the coin's
metadata and valuation alone, while the URLs additionally depend on the
query and the prices on the `Math.random` stream. -/
theorem simulateWebSearch_spec (query : String) (coin : Coin) (rnd : Nat → ℚ) :
    (simulateWebSearch query coin rnd).length = 8
    ∧ (simulateWebSearch query coin rnd).map (fun r => r.source) =
        ["Heritage Auctions", "eBay", "PCGS Price Guide", "Stack\x27s Bowers",
         "NGC Registry", "Coin World", "CoinTalk Forum", "CONECA"]
    ∧ (∀ (query2 : String) (rnd2 : Nat → ℚ),
        (simulateWebSearch query2 coin rnd2).map (fun r => r.title) =
          (simulateWebSearch query coin rnd).map (fun r => r.title)
        ∧ (simulateWebSearch query2 coin rnd2).map (fun r => r.condition) =
          (simulateWebSearch query coin rnd).map (fun r => r.condition)
        ∧ (simulateWebSearch query2 coin rnd2).map (fun r => r.description) =
          (simulateWebSearch query coin rnd).map (fun r => r.description)
        ∧ (simulateWebSearch query2 coin rnd2).map (fun r => r.soldDate) =
          (simulateWebSearch query coin rnd).map (fun r => r.soldDate)
        ∧ (simulateWebSearch query2 coin rnd2).map (fun r => r.image) =
          (simulateWebSearch query coin rnd).map (fun r => r.image))
    ∧ (∀ rnd2 : Nat → ℚ,
        (simulateWebSearch query coin rnd2).map (fun r => r.url) =
          (simulateWebSearch query coin rnd).map (fun r => r.url)) :=
  ⟨rfl, rfl, fun _ _ => ⟨rfl, rfl, rfl, rfl, rfl⟩, fun _ => rfl⟩

theorem jsRound_eval0 : jsRound (100 * (8 / 10 + 0 * (4 / 10))) = 80 := by
  unfold jsRound
  rw [show (100 : ℚ) * (8 / 10 + 0 * (4 / 10)) + 1 / 2 = 161 / 2 by norm_num]
  rw [Int.floor_eq_iff]
  constructor <;> norm_num

theorem jsRound_eval1 : jsRound (100 * (8 / 10 + 1 / 2 * (4 / 10))) = 100 := by
  unfold jsRound
  rw [show (100 : ℚ) * (8 / 10 + 1 / 2 * (4 / 10)) + 1 / 2 = 201 / 2 by norm_num]
  rw [Int.floor_eq_iff]
  constructor <;> norm_num

/-- C10 counterexample: the same coin and query with two different
`Math.random` streams produce different result lists (the first price is
$80 with a stream of zeros and $100 with a stream of halves), so the
results' contents are not determined by the coin's metadata and valuation
alone. -/
theorem simulateWebSearch_cex :
    (simulateWebSearch "q" (newCoin false 1 "") (fun _ => 0)).head?.map (fun r => r.price) =
      some "$80"
    ∧ (simulateWebSearch "q" (newCoin false 1 "") (fun _ => (1 : ℚ) / 2)).head?.map
        (fun r => r.price) = some "$100"
    ∧ simulateWebSearch "q" (newCoin false 1 "") (fun _ => 0) ≠
      simulateWebSearch "q" (newCoin false 1 "") (fun _ => (1 : ℚ) / 2) := by
  have hbase : basePriceOf (newCoin false 1 "") = 100 := rfl
  have e1 : (simulateWebSearch "q" (newCoin false 1 "") (fun _ => 0)).head?.map
      (fun r => r.price) =
      some ("$" ++ toString (jsRound (basePriceOf (newCoin false 1 "") *
        (8 / 10 + 0 * (4 / 10))))) := rfl
  have e2 : (simulateWebSearch "q" (newCoin false 1 "") (fun _ => (1 : ℚ) / 2)).head?.map
      (fun r => r.price) =
      some ("$" ++ toString (jsRound (basePriceOf (newCoin false 1 "") *
        (8 / 10 + 1 / 2 * (4 / 10))))) := rfl
  have h1 : (simulateWebSearch "q" (newCoin false 1 "") (fun _ => 0)).head?.map
      (fun r => r.price) = some "$80" := by
    rw [e1, hbase, jsRound_eval0]
    rfl
  have h2 : (simulateWebSearch "q" (newCoin false 1 "") (fun _ => (1 : ℚ) / 2)).head?.map
      (fun r => r.price) = some "$100" := by
    rw [e2, hbase, jsRound_eval1]
    rfl
  refine ⟨h1, h2, ?_⟩
  intro h
  have h3 := congrArg (fun l => l.head?.map (fun r => r.price)) h
  simp only at h3
  rw [h1, h2] at h3
  exact Option.noConfusion h3 (fun hs => by revert hs; decide)

/-- C5 (failing run): on a fresh collection the sample coin carries the
hard-coded marker ids 1001, 1002, 1003 while `nextAnnotationId` still starts
at 1000, so the second `addAnnotation` call mints id 1001 again: the
collection then holds the ids [1001, 1002, 1000, 1001, 1003], which are not
distinct, and `removeAnnotation 1001` deletes two markers (five ids before,
three after) instead of exactly one. -/
theorem annotation_id_collision :
    (( addAnnotation 1 "obverse" 10 10 none
        (addCoin true "2024-01-01T00:00:00.000Z" {})).bind
      ( addAnnotation 1 "obverse" 20 20 none)).map allAnnotationIds =
      some [1001, 1002, 1000, 1001, 1003]
    ∧ ¬ ([1001, 1002, 1000, 1001, 1003] : List Nat).Nodup
    ∧ ((( addAnnotation 1 "obverse" 10 10 none
          (addCoin true "2024-01-01T00:00:00.000Z" {})).bind
        ( addAnnotation 1 "obverse" 20 20 none)).bind
          ( removeAnnotation 1001)).map allAnnotationIds =
      some [1002, 1000, 1003] :=
  ⟨by decide, by decide, by decide⟩

theorem keys_shape {al : List (String × List Marker)}
    (h : al.map Prod.fst = ["obverse", "reverse"]) :
    ∃ l1 l2, al = [("obverse", l1), ("reverse", l2)] := by
  match al, h with
  | [(a, x), (b, y)], h =>
    simp only [List.map_cons, List.map_nil, List.cons.injEq, and_true] at h
    exact ⟨x, y, by rw [h.1, h.2]⟩

theorem mapM_option_exists {α : Type} {f : α → Option α} {P : α → Prop} {l : List α}
    (h : ∀ c ∈ l, ∃ c', f c = some c' ∧ P c') :
    ∃ l', l.mapM f = some l' ∧ ∀ c' ∈ l', P c' := by
  induction l with
  | nil => exact ⟨[], rfl, by simp⟩
  | cons a t ih =>
    obtain ⟨a', ha, hPa⟩ := h a (by simp)
    obtain ⟨t', ht, hPt⟩ := ih (fun c hc => h c (by simp [hc]))
    refine ⟨a' :: t', ?_, ?_⟩
    · rw [List.mapM_cons, ha, ht]
      rfl
    · intro c hc
      rcases List.mem_cons.mp hc with h1 | h2
      · exact h1 ▸ hPa
      · exact hPt c h2

theorem updateCoinAnn_keys {c : Coin} (i : Nat) (lb co : String)
    (hc : c.annotations.map Prod.fst = ["obverse", "reverse"]) :
    ∃ c', updateCoinAnn i lb co c = some c'
      ∧ c'.annotations.map Prod.fst = ["obverse", "reverse"] := by
  obtain ⟨l1, l2, he⟩ := keys_shape hc
  refine ⟨{ c with annotations := [("obverse", updFirstMarker i lb co l1),
    ("reverse", updFirstMarker i lb co l2)] }, ?_, by simp⟩
  unfold updateCoinAnn
  rw [he]
  simp [alGet, List.find?, alSet]

theorem removeCoinAnn_keys {c : Coin} (i : Nat)
    (hc : c.annotations.map Prod.fst = ["obverse", "reverse"]) :
    ∃ c', removeCoinAnn i c = some c'
      ∧ c'.annotations.map Prod.fst = ["obverse", "reverse"] := by
  obtain ⟨l1, l2, he⟩ := keys_shape hc
  refine ⟨{ c with annotations := [("obverse", l1.filter (fun a => a.id ≠ i)),
    ("reverse", l2.filter (fun a => a.id ≠ i))] }, ?_, by simp⟩
  unfold removeCoinAnn
  rw [he]
  simp [alGet, List.find?, alSet]

theorem mem_replaceFirstCoin {l : List Coin} {cid : Nat} {c' c : Coin}
    (h : c ∈ replaceFirstCoin l cid c') : c ∈ l ∨ c = c' := by
  induction l with
  | nil => simp [replaceFirstCoin] at h
  | cons a t ih =>
    unfold replaceFirstCoin at h
    by_cases ha : a.id = cid
    · rw [if_pos ha] at h
      rcases List.mem_cons.mp h with h1 | h2
      · exact Or.inr h1
      · exact Or.inl (List.mem_cons_of_mem a h2)
    · rw [if_neg ha] at h
      rcases List.mem_cons.mp h with h1 | h2
      · exact Or.inl (h1 ▸ List.mem_cons_self a t)
      · rcases ih h2 with h3 | h4
        · exact Or.inl (List.mem_cons_of_mem a h3)
        · exact Or.inr h4

theorem addAnnotation_keys {s : AppState} {coinId : Nat} {side : String} {x y : Int}
    {label : Option String} (hs : TwoSided s)
    (hside : side = "obverse" ∨ side = "reverse") :
    ∃ s', addAnnotation coinId side x y label s = some s' ∧ TwoSided s' := by
  unfold addAnnotation
  by_cases hm : s.currentMode ≠ "annotate"
  · rw [if_pos hm]
    exact ⟨s, rfl, hs⟩
  · rw [if_neg hm]
    cases hf : s.coins.find? (fun c => c.id = coinId) with
    | none => exact ⟨s, rfl, hs⟩
    | some coin =>
      have hcoin : coin ∈ s.coins := List.mem_of_find?_eq_some hf
      obtain ⟨l1, l2, he⟩ := keys_shape (hs coin hcoin)
      rcases hside with h1 | h1 <;> subst h1
      · have hget : alGet coin.annotations "obverse" = some l1 := by
          rw [he]
          simp [alGet, List.find?]
        dsimp only
        rw [hget]
        refine ⟨_, rfl, ?_⟩
        intro c hc
        rcases mem_replaceFirstCoin hc with h2 | h2
        · exact hs c h2
        · rw [h2]
          show (alSet coin.annotations "obverse" _).map Prod.fst = _
          rw [he]
          simp [alSet]
      · have hget : alGet coin.annotations "reverse" = some l2 := by
          rw [he]
          simp [alGet, List.find?]
        dsimp only
        rw [hget]
        refine ⟨_, rfl, ?_⟩
        intro c hc
        rcases mem_replaceFirstCoin hc with h2 | h2
        · exact hs c h2
        · rw [h2]
          show (alSet coin.annotations "reverse" _).map Prod.fst = _
          rw [he]
          simp [alSet]

/-- C4: every coin owns annotation markers on exactly two images.  A coin
built by `addCoin` has an annotations object with exactly the keys
`obverse` and `reverse` (each holding markers with id, x, y, label, color, by
the `Marker` type); and the two-sided shape is an invariant: it is preserved
by `addCoin`, and under it `addAnnotation` (for either side), `updateAnnotation`
and `removeAnnotation` all succeed — they read and write only the two
per-coin lists — and preserve it. -/
theorem annotations_two_sided (isSample : Bool) (now : String) (coinId : Nat)
    (side : String) (x y : Int) (label : Option String) (annId : Nat)
    (lab col : String) (s : AppState) :
    ((newCoin isSample s.nextCoinId now).annotations.map Prod.fst = ["obverse", "reverse"])
    ∧ (TwoSided s → TwoSided (addCoin isSample now s))
    ∧ (TwoSided s → side = "obverse" ∨ side = "reverse" →
        ∃ s', addAnnotation coinId side x y label s = some s' ∧ TwoSided s')
    ∧ (TwoSided s → ∃ s', updateAnnotation annId lab col s = some s' ∧ TwoSided s')
    ∧ (TwoSided s → ∃ s', removeAnnotation annId s = some s' ∧ TwoSided s') := by
  refine ⟨rfl, ?_, ?_, ?_, ?_⟩
  · intro hs c hc
    rcases List.mem_append.mp hc with h1 | h2
    · exact hs c h1
    · rw [List.mem_singleton.mp h2]
      rfl
  · exact fun hs hside => addAnnotation_keys hs hside
  · intro hs
    obtain ⟨cl, hcl, hP⟩ := mapM_option_exists
      (fun c hc => updateCoinAnn_keys annId lab col (hs c hc))
    refine ⟨{ s with coins := cl }, ?_, fun c hc => hP c hc⟩
    unfold updateAnnotation
    rw [hcl]
    rfl
  · intro hs
    obtain ⟨cl, hcl, hP⟩ := mapM_option_exists
      (fun c hc => removeCoinAnn_keys annId (hs c hc))
    refine ⟨{ s with coins := cl }, ?_, fun c hc => hP c hc⟩
    unfold removeAnnotation
    rw [hcl]
    rfl

/-- C4 witness: the invariant holds of a fresh sample collection and each
operation applied to it succeeds and preserves it. -/
theorem annotations_two_sided_witness :
    TwoSided (addCoin true "t" {})
    ∧ (∃ s', addAnnotation 1 "obverse" 10 20 none (addCoin true "t" {}) = some s'
        ∧ TwoSided s')
    ∧ (∃ s', updateAnnotation 1001 "L" "#ffffff" (addCoin true "t" {}) = some s'
        ∧ TwoSided s')
    ∧ (∃ s', removeAnnotation 1001 (addCoin true "t" {}) = some s' ∧ TwoSided s') := by
  have h := annotations_two_sided true "t" 1 "obverse" 10 20 none 1001 "L" "#ffffff"
    (addCoin true "t" {})
  have hts : TwoSided (addCoin true "t" {}) := by decide
  exact ⟨hts, h.2.2.1 hts (Or.inl rfl), h.2.2.2.1 hts, h.2.2.2.2 hts⟩

theorem compressCoin_spec (compress : String → String) (c : Coin) :
    CompressesBigImages compress c (compressCoin compress c) :=
  ⟨rfl, rfl, rfl, rfl, rfl, rfl, rfl, rfl, rfl, rfl, rfl, rfl, rfl, rfl⟩

theorem forall₂_map_right {α β : Type} {R : α → β → Prop} {f : α → β}
    (h : ∀ a, R a (f a)) : ∀ l : List α, List.Forall₂ R l (l.map f)
  | [] => List.Forall₂.nil
  | a :: t => List.Forall₂.cons (h a) (forall₂_map_right h t)

theorem setCoinsItem_true {st : Store} {cs : List Coin}
    (h : (setCoinsItem st cs).2 = true) :
    (setCoinsItem st cs).1 = { st with coinCollection := some cs } := by
  revert h
  unfold setCoinsItem
  split
  · intro _
    rfl
  · intro h
    exact absurd h (by simp)

theorem setMetaItem_true {st : Store} {m : MetaSnapshot}
    (h : (setMetaItem st m).2 = true) :
    (setMetaItem st m).1 = { st with coinCollectionMeta := some m } := by
  revert h
  unfold setMetaItem
  split
  · intro _
    rfl
  · intro h
    exact absurd h (by simp)

theorem setMetaItem_keeps_coins (st : Store) (m : MetaSnapshot) :
    (setMetaItem st m).1.coinCollection = st.coinCollection := by
  unfold setMetaItem
  split <;> rfl

theorem hq_spec (compress : String → String) (s : AppState) (store : Store) :
    List.Forall₂ (CompressesBigImages compress) s.coins
      (handleStorageQuotaExceeded compress s store).state.coins
    ∧ writesTo (handleStorageQuotaExceeded compress s store).writes "coinCollection" ≤ 1
    ∧ metaOf (handleStorageQuotaExceeded compress s store).state = metaOf s
    ∧ ((handleStorageQuotaExceeded compress s store).ok = true →
        (handleStorageQuotaExceeded compress s store).store.coinCollection =
          some (handleStorageQuotaExceeded compress s store).state.coins
        ∧ (handleStorageQuotaExceeded compress s store).store.coinCollectionMeta =
          some (metaOf (handleStorageQuotaExceeded compress s store).state)
        ∧ ("coinCollection",
            stringifyCoins (handleStorageQuotaExceeded compress s store).state.coins) ∈
            (handleStorageQuotaExceeded compress s store).writes
        ∧ ("coinCollectionMeta",
            stringifyMeta (metaOf (handleStorageQuotaExceeded compress s store).state)) ∈
            (handleStorageQuotaExceeded compress s store).writes)
    ∧ ((∀ c ∈ s.coins, coinHasBigImage c = false) →
        (handleStorageQuotaExceeded compress s store).writes = []
        ∧ (handleStorageQuotaExceeded compress s store).store = store) := by
  unfold handleStorageQuotaExceeded
  cases hany : s.coins.any coinHasBigImage with
  | true =>
    rw [if_pos rfl]
    cases hw1 : (setCoinsItem store (s.coins.map (compressCoin compress))).2 with
    | true =>
      rw [if_pos rfl]
      refine ⟨forall₂_map_right (compressCoin_spec compress) s.coins, ?_, rfl, ?_, ?_⟩
      · simp [writesTo, List.countP_cons]
      · intro hok
        have hm := setMetaItem_true hok
        refine ⟨?_, ?_, ?_, ?_⟩
        · rw [hm]
          show (setCoinsItem store (s.coins.map (compressCoin compress))).1.coinCollection = _
          rw [setCoinsItem_true hw1]
        · rw [hm]
          rfl
        · exact List.mem_cons_self _ _
        · exact List.mem_cons_of_mem _ (List.mem_cons_self _ _)
      · intro hnone
        exfalso
        rcases List.any_eq_true.mp hany with ⟨c, hc, hbig⟩
        rw [hnone c hc] at hbig
        exact Bool.noConfusion hbig
    | false =>
      rw [if_neg (by simp [hw1])]
      refine ⟨forall₂_map_right (compressCoin_spec compress) s.coins, ?_, rfl, ?_, ?_⟩
      · simp [writesTo, List.countP_cons]
      · intro hok
        exact absurd hok (by simp)
      · intro hnone
        exfalso
        rcases List.any_eq_true.mp hany with ⟨c, hc, hbig⟩
        rw [hnone c hc] at hbig
        exact Bool.noConfusion hbig
  | false =>
    rw [if_neg (by simp [hany])]
    refine ⟨forall₂_map_right (compressCoin_spec compress) s.coins, ?_, rfl, ?_, ?_⟩
    · simp [writesTo]
    · intro hok
      exact absurd hok (by simp)
    · intro _
      exact ⟨rfl, rfl⟩

/-- C1: `saveToStorage` serializes the coins and the metadata (`nextCoinId`,
`nextAnnotationId`, `expandedCoins`); when the size estimate — twice the
combined string length — stays within the 4 MB threshold and both writes go
through, it stores exactly the two serialized strings under
`'coinCollection'` and `'coinCollectionMeta'` and leaves the collection
unchanged; when the threshold is exceeded or a write throws
`QuotaExceededError`, it compresses exactly the stored image data-URLs
longer than 100000 characters (everything else untouched) and re-attempts
the write at most once (at most two `'coinCollection'` attempts ever, and at
most one on the size-threshold path); and whenever the save reports success,
the store holds the serialization of the final collection under the two
keys. -/
theorem saveToStorage_spec (compress : String → String) (s : AppState) (store : Store) :
    (¬ 4 * 1024 * 1024 <
        ((stringifyCoins s.coins).length + (stringifyMeta (metaOf s)).length) * 2 →
      (setCoinsItem store s.coins).2 = true →
      (setMetaItem (setCoinsItem store s.coins).1 (metaOf s)).2 = true →
      saveToStorage compress s store =
        ⟨s, (setMetaItem (setCoinsItem store s.coins).1 (metaOf s)).1,
         [("coinCollection", stringifyCoins s.coins),
          ("coinCollectionMeta", stringifyMeta (metaOf s))], true⟩)
    ∧ ((4 * 1024 * 1024 <
          ((stringifyCoins s.coins).length + (stringifyMeta (metaOf s)).length) * 2
        ∨ (setCoinsItem store s.coins).2 = false
        ∨ (setMetaItem (setCoinsItem store s.coins).1 (metaOf s)).2 = false) →
        List.Forall₂ (CompressesBigImages compress) s.coins
          (saveToStorage compress s store).state.coins
        ∧ writesTo (saveToStorage compress s store).writes "coinCollection" ≤ 2
        ∧ (4 * 1024 * 1024 <
            ((stringifyCoins s.coins).length + (stringifyMeta (metaOf s)).length) * 2 →
            writesTo (saveToStorage compress s store).writes "coinCollection" ≤ 1))
    ∧ ((saveToStorage compress s store).ok = true →
        (saveToStorage compress s store).store.coinCollection =
          some (saveToStorage compress s store).state.coins
        ∧ (saveToStorage compress s store).store.coinCollectionMeta =
          some (metaOf (saveToStorage compress s store).state)
        ∧ ("coinCollection", stringifyCoins (saveToStorage compress s store).state.coins)
            ∈ (saveToStorage compress s store).writes
        ∧ ("coinCollectionMeta", stringifyMeta (metaOf (saveToStorage compress s store).state))
            ∈ (saveToStorage compress s store).writes) := by
  unfold saveToStorage
  by_cases hbig : 4 * 1024 * 1024 <
      ((stringifyCoins s.coins).length + (stringifyMeta (metaOf s)).length) * 2
  · rw [if_pos hbig]
    obtain ⟨hF, hW, hmeta, hC, -⟩ := hq_spec compress s store
    refine ⟨fun hn => absurd hbig hn, fun _ => ⟨hF, le_trans hW (by omega), fun _ => hW⟩, ?_⟩
    intro hok
    obtain ⟨h1, h2, h3, h4⟩ := hC hok
    exact ⟨h1, h2, h3, h4⟩
  · rw [if_neg hbig]
    cases hw1 : (setCoinsItem store s.coins).2 with
    | true =>
      rw [if_pos rfl]
      cases hw2 : (setMetaItem (setCoinsItem store s.coins).1 (metaOf s)).2 with
      | true =>
        rw [if_pos rfl]
        refine ⟨fun _ _ _ => rfl, ?_, ?_⟩
        · intro h
          rcases h with h | h | h
          · exact absurd h hbig
          · exact Bool.noConfusion h
          · exact Bool.noConfusion h
        · intro _
          refine ⟨?_, ?_, List.mem_cons_self _ _,
            List.mem_cons_of_mem _ (List.mem_cons_self _ _)⟩
          · show (setMetaItem (setCoinsItem store s.coins).1 (metaOf s)).1.coinCollection = _
            rw [setMetaItem_keeps_coins, setCoinsItem_true hw1]
          · show (setMetaItem (setCoinsItem store s.coins).1 (metaOf s)).1.coinCollectionMeta = _
            rw [setMetaItem_true hw2]
      | false =>
        rw [if_neg (by simp [hw2])]
        obtain ⟨hF, hW, hmeta, hC, -⟩ := hq_spec compress s (setCoinsItem store s.coins).1
        refine ⟨?_, ?_, ?_⟩
        · exact fun _ _ h => Bool.noConfusion h
        · intro _
          refine ⟨hF, ?_, fun h => absurd h hbig⟩
          show writesTo ([("coinCollection", stringifyCoins s.coins),
            ("coinCollectionMeta", stringifyMeta (metaOf s))] ++
              (handleStorageQuotaExceeded compress s (setCoinsItem store s.coins).1).writes)
            "coinCollection" ≤ 2
          unfold writesTo at hW ⊢
          rw [List.countP_append]
          have h2 : List.countP (fun e => decide (e.1 = "coinCollection"))
              [("coinCollection", stringifyCoins s.coins),
               ("coinCollectionMeta", stringifyMeta (metaOf s))] = 1 := by
            simp [List.countP_cons]
          omega
        · intro hok
          obtain ⟨h1, h2, h3, h4⟩ := hC hok
          exact ⟨h1, h2, List.mem_append_right _ h3, List.mem_append_right _ h4⟩
    | false =>
      rw [if_neg (by simp [hw1])]
      obtain ⟨hF, hW, hmeta, hC, -⟩ := hq_spec compress s store
      refine ⟨?_, ?_, ?_⟩
      · exact fun _ h _ => Bool.noConfusion h
      · intro _
        refine ⟨hF, ?_, fun h => absurd h hbig⟩
        show writesTo ([("coinCollection", stringifyCoins s.coins)] ++
            (handleStorageQuotaExceeded compress s store).writes) "coinCollection" ≤ 2
        unfold writesTo at hW ⊢
        rw [List.countP_append]
        have h2 : List.countP (fun e => decide (e.1 = "coinCollection"))
            [("coinCollection", stringifyCoins s.coins)] = 1 := by
          simp [List.countP_cons]
        omega
      · intro hok
        obtain ⟨h1, h2, h3, h4⟩ := hC hok
        exact ⟨h1, h2, List.mem_append_right _ h3, List.mem_append_right _ h4⟩

/-- C1 witness: on an empty collection with ample quota the save stores both
serialized values and reports success; with zero quota the first write
throws and the compression path runs (vacuously compressing nothing) with at
most one retry. -/
theorem saveToStorage_spec_witness :
    saveToStorage id {} ⟨none, none, 1000000⟩ =
      ⟨{}, (setMetaItem (setCoinsItem ⟨none, none, 1000000⟩ ([] : List Coin)).1
        (metaOf ({} : AppState))).1,
       [("coinCollection", stringifyCoins ([] : List Coin)),
        ("coinCollectionMeta", stringifyMeta (metaOf ({} : AppState)))], true⟩
    ∧ (List.Forall₂ (CompressesBigImages id) ([] : List Coin)
        (saveToStorage id {} ⟨none, none, 0⟩).state.coins
      ∧ writesTo (saveToStorage id {} ⟨none, none, 0⟩).writes "coinCollection" ≤ 2
      ∧ (4 * 1024 * 1024 <
          ((stringifyCoins ([] : List Coin)).length +
            (stringifyMeta (metaOf ({} : AppState))).length) * 2 →
          writesTo (saveToStorage id {} ⟨none, none, 0⟩).writes "coinCollection" ≤ 1)) :=
  ⟨(saveToStorage_spec id {} ⟨none, none, 1000000⟩).1 (by decide) (by decide) (by decide),
   (saveToStorage_spec id {} ⟨none, none, 0⟩).2.1 (Or.inr (Or.inl (by decide)))⟩

theorem save_ok_spec (compress : String → String) (s : AppState) (store : Store) :
    (saveToStorage compress s store).ok = true →
      (saveToStorage compress s store).store.coinCollection =
        some (saveToStorage compress s store).state.coins
      ∧ (saveToStorage compress s store).store.coinCollectionMeta =
        some (metaOf (saveToStorage compress s store).state)
      ∧ metaOf (saveToStorage compress s store).state = metaOf s := by
  unfold saveToStorage
  by_cases hbig : 4 * 1024 * 1024 <
      ((stringifyCoins s.coins).length + (stringifyMeta (metaOf s)).length) * 2
  · rw [if_pos hbig]
    obtain ⟨-, -, hmeta, hC, -⟩ := hq_spec compress s store
    intro hok
    obtain ⟨a, b, -, -⟩ := hC hok
    exact ⟨a, b, hmeta⟩
  · rw [if_neg hbig]
    cases hw1 : (setCoinsItem store s.coins).2 with
    | true =>
      rw [if_pos rfl]
      cases hw2 : (setMetaItem (setCoinsItem store s.coins).1 (metaOf s)).2 with
      | true =>
        rw [if_pos rfl]
        intro _
        refine ⟨?_, ?_, rfl⟩
        · show (setMetaItem (setCoinsItem store s.coins).1 (metaOf s)).1.coinCollection = _
          rw [setMetaItem_keeps_coins, setCoinsItem_true hw1]
        · show (setMetaItem (setCoinsItem store s.coins).1 (metaOf s)).1.coinCollectionMeta = _
          rw [setMetaItem_true hw2]
      | false =>
        rw [if_neg (by simp)]
        obtain ⟨-, -, hmeta, hC, -⟩ := hq_spec compress s (setCoinsItem store s.coins).1
        intro hok
        obtain ⟨a, b, -, -⟩ := hC hok
        exact ⟨a, b, hmeta⟩
    | false =>
      rw [if_neg (by simp)]
      obtain ⟨-, -, hmeta, hC, -⟩ := hq_spec compress s store
      intro hok
      obtain ⟨a, b, -, -⟩ := hC hok
      exact ⟨a, b, hmeta⟩

theorem load_of_snapshot {st : Store} {cs : List Coin} {m : MetaSnapshot}
    (hcc : st.coinCollection = some cs) (hm : st.coinCollectionMeta = some m)
    (hz1 : m.nextCoinId ≠ 0) (hz2 : m.nextAnnotationId ≠ 0)
    (hnd : m.expandedCoins.Nodup) (s₀ : AppState) :
    loadFromStorage st s₀ =
      { s₀ with coins := cs, nextCoinId := m.nextCoinId,
                nextAnnotationId := m.nextAnnotationId,
                expandedCoins := m.expandedCoins } := by
  unfold loadFromStorage
  rw [hcc, hm]
  dsimp only
  rw [if_neg hz1, if_neg hz2, List.dedup_eq_self.mpr hnd]

/-- C2: after any `saveToStorage` call that successfully writes to
localStorage (its outcome reports success), a subsequent `loadFromStorage`
restores `coins`, `nextCoinId`, `nextAnnotationId` and `expandedCoins` equal
to the values that were saved — the final state's coins (compressed if
compression ran) and its counters, which the save never changes.  The
hypotheses are the reachable-state facts the `||`-fallbacks of
`loadFromStorage` rely on: the counters are nonzero (they start at 1 and
1000 and only increase) and the expanded-coin ids, coming from a `Set`, are
duplicate-free. -/
theorem save_load_roundtrip (compress : String → String) (s : AppState) (store : Store)
    (s₀ : AppState) (hok : (saveToStorage compress s store).ok = true)
    (h1 : s.nextCoinId ≠ 0) (h2 : s.nextAnnotationId ≠ 0)
    (h3 : s.expandedCoins.Nodup) :
    loadFromStorage (saveToStorage compress s store).store s₀ =
      { s₀ with coins := (saveToStorage compress s store).state.coins,
                nextCoinId := s.nextCoinId,
                nextAnnotationId := s.nextAnnotationId,
                expandedCoins := s.expandedCoins }
    ∧ (saveToStorage compress s store).state.nextCoinId = s.nextCoinId
    ∧ (saveToStorage compress s store).state.nextAnnotationId = s.nextAnnotationId
    ∧ (saveToStorage compress s store).state.expandedCoins = s.expandedCoins := by
  obtain ⟨hcc, hmm, hmeta⟩ := save_ok_spec compress s store hok
  have e1 : (saveToStorage compress s store).state.nextCoinId = s.nextCoinId :=
    congrArg MetaSnapshot.nextCoinId hmeta
  have e2 : (saveToStorage compress s store).state.nextAnnotationId = s.nextAnnotationId :=
    congrArg MetaSnapshot.nextAnnotationId hmeta
  have e3 : (saveToStorage compress s store).state.expandedCoins = s.expandedCoins :=
    congrArg MetaSnapshot.expandedCoins hmeta
  refine ⟨?_, e1, e2, e3⟩
  have hload := load_of_snapshot hcc hmm
    (by rw [hmeta]; exact h1)
    (by rw [hmeta]; exact h2)
    (by rw [hmeta]; exact h3) s₀
  rw [hload, hmeta]
  rfl

/-- C2 witness: a concrete successful save on the initial state round-trips
through an empty store. -/
theorem save_load_roundtrip_witness :
    loadFromStorage (saveToStorage id {} ⟨none, none, 1000000⟩).store {} =
      { ({} : AppState) with
          coins := (saveToStorage id {} ⟨none, none, 1000000⟩).state.coins,
          nextCoinId := ({} : AppState).nextCoinId,
          nextAnnotationId := ({} : AppState).nextAnnotationId,
          expandedCoins := ({} : AppState).expandedCoins }
    ∧ (saveToStorage id {} ⟨none, none, 1000000⟩).state.nextCoinId =
        ({} : AppState).nextCoinId
    ∧ (saveToStorage id {} ⟨none, none, 1000000⟩).state.nextAnnotationId =
        ({} : AppState).nextAnnotationId
    ∧ (saveToStorage id {} ⟨none, none, 1000000⟩).state.expandedCoins =
        ({} : AppState).expandedCoins :=
  save_load_roundtrip id {} ⟨none, none, 1000000⟩ {} (by decide) (by decide) (by decide)
    (by decide)

/-- C3: when the estimated serialized size exceeds the 4 MB threshold but no
stored image data-URL (main obverse/reverse image or a media item's `data`
field) is longer than 100000 characters, `saveToStorage` performs no
localStorage write at all: the attempt log is empty and the store — both
keys — keeps its previous contents. -/
theorem oversized_save_writes_nothing (compress : String → String) (s : AppState)
    (store : Store)
    (hbig : 4 * 1024 * 1024 <
      ((stringifyCoins s.coins).length + (stringifyMeta (metaOf s)).length) * 2)
    (hsmall : ∀ c ∈ s.coins, coinHasBigImage c = false) :
    (saveToStorage compress s store).writes = []
    ∧ (saveToStorage compress s store).store = store := by
  unfold saveToStorage
  rw [if_pos hbig]
  exact (hq_spec compress s store).2.2.2.2 hsmall

theorem joinComma_replicate_length (x : String) : ∀ n : Nat, 1 ≤ n →
    (joinComma (List.replicate n x)).length = n * x.length + (n - 1) := by
  intro n
  induction n with
  | zero =>
    intro h
    exact absurd h (by omega)
  | succ n ih =>
    intro _
    cases n with
    | zero => simp [joinComma]
    | succ m =>
      rw [List.replicate_succ, List.replicate_succ]
      show ((x ++ ",") ++ joinComma (x :: List.replicate m x)).length = _
      rw [← List.replicate_succ]
      rw [String.length_append, String.length_append]
      rw [ih (by omega)]
      have hc : ("," : String).length = 1 := rfl
      rw [hc]
      ring_nf
      omega

theorem stringifyCoins_replicate_length :
    (stringifyCoins (List.replicate 8192 (newCoin false 1 ""))).length =
      8192 * (stringifyCoin (newCoin false 1 "")).length + 8193 := by
  show (("[" ++ joinComma ((List.replicate 8192 (newCoin false 1 "")).map stringifyCoin))
    ++ "]").length = _
  rw [List.map_replicate]
  rw [String.length_append, String.length_append]
  rw [joinComma_replicate_length _ 8192 (by omega)]
  have h1 : ("[" : String).length = 1 := rfl
  have h2 : ("]" : String).length = 1 := rfl
  rw [h1, h2]
  omega

/-- C3 witness: a collection of 8192 empty coins serializes past the 4 MB
threshold with no image present at all, and saving it touches neither the
attempt log nor the store. -/
theorem oversized_save_writes_nothing_witness :
    (saveToStorage id { coins := List.replicate 8192 (newCoin false 1 "") }
      ⟨none, none, 0⟩).writes = []
    ∧ (saveToStorage id { coins := List.replicate 8192 (newCoin false 1 "") }
      ⟨none, none, 0⟩).store = ⟨none, none, 0⟩ := by
  have hL : 256 ≤ (stringifyCoin (newCoin false 1 "")).length := by decide
  apply oversized_save_writes_nothing
  · have e : ({ coins := List.replicate 8192 (newCoin false 1 "") } : AppState).coins =
        List.replicate 8192 (newCoin false 1 "") := rfl
    rw [e, stringifyCoins_replicate_length]
    generalize (stringifyMeta (metaOf ({ coins := List.replicate 8192 (newCoin false 1 "") } :
      AppState))).length = M
    revert hL
    generalize (stringifyCoin (newCoin false 1 "")).length = L
    intro hL
    omega
  · intro c hc
    rw [(List.mem_replicate.mp hc).2]
    decide

end Coinpresent
